import Mathlib

/-!
Shallow embedding of `src/database/globals.rs` (the `Globals` state holder of
the conduit server) together with the `utils` helpers it calls.

Modelling conventions:
* byte sequences are `List Nat` (each entry a byte value, `< 256` where it
  matters, stated as an explicit hypothesis);
* the sled tree is a total map `String → Option (List Nat)`; its
  `update_and_fetch` applies the transform once to the current value, stores
  the result and returns it together with the updated tree (state passing);
* machine integers are `Nat`/`Int` with explicit `% 2 ^ 64` (u64 wrap-around
  of Rust release builds) and an explicit u32 range check for `try_into`;
* external collaborators (ruma's Ed25519 keypair decoding, ruma's server-name
  validation) are parameters of `Globals.load`: a validity predicate on the
  persisted blob and one on the server-name string;
* the nondeterministic fresh keypair generated by
  `ruma::signatures::Ed25519KeyPair::generate` is a parameter `fresh`;
* fallible operations return `Except Error α`.
-/

namespace Conduit

/-- Error type of conduit, restricted to the two variants `globals.rs`
constructs: `Error::bad_database(..)` and `Error::BadConfig(..)`. -/
inductive Error where
  | BadDatabase (message : String)
  | BadConfig (message : String)
deriving DecidableEq, Repr

/-- Helper mirroring `Error::bad_database`: constructs the data-corruption variant. -/
def Error.bad_database (message : String) : Error :=
  Error.BadDatabase message

/-- A sled tree: a persistent map from (string) keys to byte values. -/
def Tree : Type := String → Option (List Nat)

/-- Models `sled::Tree::get`: point read, no side effect. -/
def Tree.get (t : Tree) (k : String) : Option (List Nat) :=
  t k

/-- Point update of the map backing a tree (`none` removes the key). -/
def Tree.insert (t : Tree) (k : String) (v : Option (List Nat)) : Tree :=
  fun k2 => if k2 = k then v else t k2

/-- Models `sled::Tree::update_and_fetch`: atomically applies `f` to the current
value of `k`, stores the result (removing the key when `f` returns `none`)
and returns the stored result; the updated tree is returned explicitly
(state passing). -/
def Tree.update_and_fetch (t : Tree) (k : String)
    (f : Option (List Nat) → Option (List Nat)) : Option (List Nat) × Tree :=
  let v := f (t.get k)
  (v, t.insert k v)

/-- Modelled from the spec: `utils::u64_from_bytes` is not under `src/`.
Per the spec, counter bytes are an 8-byte big-endian unsigned integer and a
byte sequence of wrong width is a decoding failure, so: require length 8,
then fold the bytes big-endian-first into a `Nat`. -/
def u64_from_bytes (bytes : List Nat) : Except Unit Nat :=
  if bytes.length = 8 then
    Except.ok (bytes.foldl (fun acc b => acc * 256 + b) 0)
  else
    Except.error ()

/-- The 8-byte big-endian encoding of a u64 value (`u64::to_be_bytes`). -/
def u64_to_be_bytes (n : Nat) : List Nat :=
  [n / 256 ^ 7 % 256, n / 256 ^ 6 % 256, n / 256 ^ 5 % 256, n / 256 ^ 4 % 256,
   n / 256 ^ 3 % 256, n / 256 ^ 2 % 256, n / 256 ^ 1 % 256, n % 256]

/-- Modelled from the spec: `utils::increment` is not under `src/`. Per the
spec it decodes the current bytes as a big-endian u64 (treating absence as 0),
adds 1 (u64 arithmetic, hence the explicit `% 2 ^ 64` wrap of a release
build) and returns the new value re-encoded as 8 big-endian bytes. The
transform cannot itself fail, so bytes of wrong width are passed through
unchanged and the caller's decode of the returned value surfaces the
data-corruption error the spec requires. -/
def increment (old : Option (List Nat)) : Option (List Nat) :=
  match old with
  | none => some (u64_to_be_bytes ((0 + 1) % 2 ^ 64))
  | some bytes =>
    match u64_from_bytes bytes with
    | Except.ok n => some (u64_to_be_bytes ((n + 1) % 2 ^ 64))
    | Except.error _ => some bytes

/-- Modelled from the spec: `utils::generate_keypair` is not under `src/`.
Per the spec (§4.3, §9) the transform is check-then-pass-through: a present
value is returned unchanged (idempotent), an absent one is replaced by the
freshly generated serialized keypair (the nondeterministic generation result
is the parameter `fresh`). -/
def generate_keypair (fresh : List Nat) (old : Option (List Nat)) :
    Option (List Nat) :=
  some (old.getD fresh)

/-- The `ruma::signatures::Ed25519KeyPair` as consumed here: the serialized
document it was decoded from plus the version label passed to `new`. -/
structure Ed25519KeyPair where
  document : List Nat
  version : String
deriving DecidableEq, Repr

/-- Models `ruma::signatures::Ed25519KeyPair::new(document, version)` — an external
collaborator; whether the bytes decode into a valid keypair is the parameter
`valid`. On success the keypair holds the given document and version; on
failure it reports an error. -/
def Ed25519KeyPair.new (valid : List Nat → Bool) (document : List Nat)
    (version : String) : Except Unit Ed25519KeyPair :=
  if valid document then Except.ok ⟨document, version⟩ else Except.error ()

/-- The `jsonwebtoken::DecodingKey` as consumed here: a key derived from a
secret. -/
structure DecodingKey where
  secret : String
deriving DecidableEq, Repr

/-- Models `jsonwebtoken::DecodingKey::from_secret` followed by `into_static`. -/
def DecodingKey.from_secret (s : String) : DecodingKey :=
  ⟨s⟩

/-- The relevant slice of `rocket::Config`: each getter either yields a value
of the right type (`some`) or fails / is absent (`none`, covering both a
missing key and a type mismatch, which the source treats alike via
`unwrap_or*`). -/
structure Config where
  jwt_secret : Option String
  server_name : Option String
  max_request_size : Option Int
  registration_disabled : Option Bool
  encryption_disabled : Option Bool

/-- The process environment variables read by `Globals::load`. -/
structure Env where
  jwt_secret_var : Option String
  server_name_var : Option String

/-- The constant `pub const COUNTER: &str = "c";`. -/
def COUNTER : String := "c"

/-- The `Globals` struct of `globals.rs` (the `reqwest_client` handle is
pure external glue and carries no state relevant to any operation here, so
it is omitted). -/
structure Globals where
  globals : Tree
  keypair : Ed25519KeyPair
  server_name : String
  max_request_size : Nat
  registration_disabled : Bool
  encryption_disabled : Bool
  jwt_decoding_key : DecodingKey

/-- The jwt secret resolution inside `Globals::load`:
`config.get_str("jwt_secret")`, else the `JWT_SECRET` environment variable,
else the literal `"jwt_secret"`. -/
def resolved_jwt_secret (config : Config) (env : Env) : String :=
  match config.jwt_secret with
  | some s => s
  | none =>
    match env.jwt_secret_var with
    | some s => s
    | none => "jwt_secret"

/-- The server-name resolution inside `Globals::load`:
`config.get_str("server_name")`, else the `SERVER_NAME` environment
variable, else the literal `"localhost"`. -/
def resolved_server_name (config : Config) (env : Env) : String :=
  match config.server_name with
  | some s => s
  | none =>
    match env.server_name_var with
    | some s => s
    | none => "localhost"

/-- Models `Globals::load`. `valid` stands for ruma's keypair decoding check,
`validServerName` for ruma's `ServerName` validation (`try_into`), `fresh`
for the nondeterministically generated keypair bytes. Mirrors the source:
1. `globals.update_and_fetch("keypair", utils::generate_keypair)` then
   `Ed25519KeyPair::new(bytes, "key1")`, failure mapped to
   `Error::bad_database("Private or public keys are invalid.")`;
2. jwt secret resolution and decoding key derivation;
3. the struct literal, whose `server_name` field fails with
   `Error::BadConfig("Invalid server_name.")` and whose `max_request_size`
   field (`i64` defaulted to `20 * 1024 * 1024`, `try_into` u32) fails with
   `Error::BadConfig("Invalid max_request_size.")`, in that order. -/
def Globals.load (valid : List Nat → Bool) (validServerName : String → Bool)
    (config : Config) (env : Env) (globals : Tree) (fresh : List Nat) :
    Except Error Globals :=
  let fetched := globals.update_and_fetch "keypair" (generate_keypair fresh)
  match fetched.1 with
  | none =>
    -- unreachable: `.expect("utils::generate_keypair always returns Some")`
    Except.error (Error.bad_database "utils::generate_keypair always returns Some")
  | some bytes =>
    match Ed25519KeyPair.new valid bytes "key1" with
    | Except.error _ =>
      Except.error (Error.bad_database "Private or public keys are invalid.")
    | Except.ok keypair =>
      let jwt_decoding_key :=
        DecodingKey.from_secret (resolved_jwt_secret config env)
      let server_name_str := resolved_server_name config env
      if validServerName server_name_str then
        let mrs : Int := config.max_request_size.getD (20 * 1024 * 1024)
        if 0 ≤ mrs ∧ mrs < 2 ^ 32 then
          Except.ok
            { globals := fetched.2
              keypair := keypair
              server_name := server_name_str
              max_request_size := mrs.toNat
              registration_disabled := config.registration_disabled.getD false
              encryption_disabled := config.encryption_disabled.getD false
              jwt_decoding_key := jwt_decoding_key }
        else
          Except.error (Error.BadConfig "Invalid max_request_size.")
      else
        Except.error (Error.BadConfig "Invalid server_name.")

/-- Models `Globals::next_count`: `update_and_fetch(COUNTER, utils::increment)`,
then decode the stored result, mapping decode failure to
`Error::bad_database("Count has invalid bytes.")`. State passing: the
updated handle is returned alongside the result. -/
def Globals.next_count (g : Globals) : Except Error Nat × Globals :=
  let fetched := g.globals.update_and_fetch COUNTER increment
  match fetched.1 with
  | none =>
    -- unreachable: `.expect("utils::increment will always put in a value")`
    (Except.error (Error.bad_database "utils::increment will always put in a value"),
      { g with globals := fetched.2 })
  | some bytes =>
    (match u64_from_bytes bytes with
      | Except.ok n => Except.ok n
      | Except.error _ => Except.error (Error.bad_database "Count has invalid bytes."),
      { g with globals := fetched.2 })

/-- Models `Globals::current_count`: a plain `get` of the counter key, `0` when
absent, decode failure mapped to
`Error::bad_database("Count has invalid bytes.")`. The handle is returned
unchanged. -/
def Globals.current_count (g : Globals) : Except Error Nat × Globals :=
  (match g.globals.get COUNTER with
    | none => Except.ok 0
    | some bytes =>
      match u64_from_bytes bytes with
      | Except.ok n => Except.ok n
      | Except.error _ => Except.error (Error.bad_database "Count has invalid bytes."),
    g)

/-- Runs `N` successive `next_count` calls, returning the list of results in
call order and the final handle. -/
def nextCounts (g : Globals) : Nat → List (Except Error Nat) × Globals
  | 0 => ([], g)
  | Nat.succ n =>
    let step := g.next_count
    let rest := nextCounts step.2 n
    (step.1 :: rest.1, rest.2)

/-! Concrete fixtures used to evaluate the development on closed inputs. -/

/-- Keypair-decoding check accepting every document. -/
def allBytesValid : List Nat → Bool := fun _ => true

/-- Keypair-decoding check rejecting every document. -/
def noBytesValid : List Nat → Bool := fun _ => false

/-- Server-name validation accepting every string. -/
def allNamesValid : String → Bool := fun _ => true

/-- Configuration with every getter failing (all defaults apply). -/
def emptyConfig : Config := ⟨none, none, none, none, none⟩

/-- Configuration whose `max_request_size` does not fit in a u32. -/
def bigMrsConfig : Config := ⟨none, none, some (2 ^ 32), none, none⟩

/-- Environment with neither variable set. -/
def emptyEnv : Env := ⟨none, none⟩

/-- The empty store. -/
def emptyTree : Tree := fun _ => none

/-- A store holding only the 8-byte big-endian counter value `v`. -/
def counterTree (v : Nat) : Tree :=
  fun k => if k = COUNTER then some (u64_to_be_bytes v) else none

/-- A store whose counter value has width 3 instead of 8. -/
def badCounterTree : Tree :=
  fun k => if k = COUNTER then some [1, 2, 3] else none

/-- A `Globals` handle over the store `t` (the other fields are the ones
`Globals.load` produces for `emptyConfig`/`emptyEnv`). -/
def mkGlobals (t : Tree) : Globals :=
  ⟨t, ⟨[], "key1"⟩, "localhost", 20 * 1024 * 1024, false, false, ⟨"jwt_secret"⟩⟩

/-- The empty store after committing the keypair document `[7]`. -/
def exTree1 : Tree := Tree.insert emptyTree "keypair" (some [7])

/-- The handle `Globals.load` produces on the empty store with fresh
document `[7]`, all-accepting validators and empty config/env. -/
def exG1 : Globals :=
  ⟨exTree1, ⟨[7], "key1"⟩, "localhost", 20 * 1024 * 1024, false, false,
    ⟨"jwt_secret"⟩⟩

/-- The handle a second `Globals.load` produces over `exG1.globals`. -/
def exG2 : Globals :=
  ⟨Tree.insert exTree1 "keypair" (some [7]), ⟨[7], "key1"⟩, "localhost",
    20 * 1024 * 1024, false, false, ⟨"jwt_secret"⟩⟩

/-! Helper lemmas. -/

theorem Tree.get_insert_self (t : Tree) (k : String) (v : Option (List Nat)) :
    (t.insert k v).get k = v := by
  simp [Tree.insert, Tree.get]

theorem Tree.insert_of_get_eq (t : Tree) (k : String) (v : Option (List Nat))
    (h : t.get k = v) : t.insert k v = t := by
  funext k2
  unfold Tree.insert
  by_cases h2 : k2 = k
  · subst h2
    simp only [Tree.get] at h
    simp [h]
  · simp [h2]

/-- Decoding inverts the 8-byte big-endian encoding below `2 ^ 64`. -/
theorem u64_from_bytes_to_be (n : Nat) (h : n < 2 ^ 64) :
    u64_from_bytes (u64_to_be_bytes n) = Except.ok n := by
  simp [u64_from_bytes, u64_to_be_bytes, List.foldl]
  omega

theorem foldl_byte_bound (l : List Nat) (acc : Nat) (h : ∀ b ∈ l, b < 256) :
    l.foldl (fun acc b => acc * 256 + b) acc < (acc + 1) * 256 ^ l.length := by
  induction l generalizing acc with
  | nil => simp
  | cons b t ih =>
    simp only [List.foldl_cons, List.length_cons]
    have hb : b < 256 := h b (List.mem_cons_self b t)
    have ht : ∀ x ∈ t, x < 256 := fun x hx => h x (List.mem_cons_of_mem b hx)
    calc List.foldl (fun acc b => acc * 256 + b) (acc * 256 + b) t
        < (acc * 256 + b + 1) * 256 ^ t.length := ih (acc * 256 + b) ht
      _ ≤ (acc + 1) * 256 ^ (t.length + 1) := by
          have hstep : acc * 256 + b + 1 ≤ (acc + 1) * 256 := by omega
          calc (acc * 256 + b + 1) * 256 ^ t.length
              ≤ (acc + 1) * 256 * 256 ^ t.length :=
                Nat.mul_le_mul_right _ hstep
            _ = (acc + 1) * 256 ^ (t.length + 1) := by ring

/-- A value decoded from well-formed bytes lies below `2 ^ 64`. -/
theorem u64_from_bytes_lt (bytes : List Nat) (d : Nat)
    (hwf : ∀ b ∈ bytes, b < 256) (h : u64_from_bytes bytes = Except.ok d) :
    d < 2 ^ 64 := by
  unfold u64_from_bytes at h
  split at h
  case isTrue hlen =>
    injection h with h
    subst h
    have := foldl_byte_bound bytes 0 hwf
    rw [hlen] at this
    simpa using this
  case isFalse => exact absurd h (by simp)

/-- Characterization of `Globals.load` as a decision chain. -/
theorem load_eq (valid : List Nat → Bool) (validServerName : String → Bool)
    (config : Config) (env : Env) (t : Tree) (fresh : List Nat) :
    Globals.load valid validServerName config env t fresh =
      (let bytes := (t.get "keypair").getD fresh
      let t2 := t.insert "keypair" (some bytes)
      if valid bytes then
        if validServerName (resolved_server_name config env) then
          let mrs : Int := config.max_request_size.getD (20 * 1024 * 1024)
          if 0 ≤ mrs ∧ mrs < 2 ^ 32 then
            Except.ok
              { globals := t2
                keypair := ⟨bytes, "key1"⟩
                server_name := resolved_server_name config env
                max_request_size := mrs.toNat
                registration_disabled := config.registration_disabled.getD false
                encryption_disabled := config.encryption_disabled.getD false
                jwt_decoding_key :=
                  DecodingKey.from_secret (resolved_jwt_secret config env) }
          else Except.error (Error.BadConfig "Invalid max_request_size.")
        else Except.error (Error.BadConfig "Invalid server_name.")
      else Except.error (Error.bad_database "Private or public keys are invalid.")) := by
  simp only [Globals.load, Tree.update_and_fetch, Tree.get, generate_keypair,
    Ed25519KeyPair.new]
  by_cases hv : valid ((t "keypair").getD fresh) <;> simp [hv]

/-- Inversion: everything a successful `Globals.load` determines. -/
theorem load_ok_inv (valid : List Nat → Bool) (validServerName : String → Bool)
    (config : Config) (env : Env) (t : Tree) (fresh : List Nat) (g : Globals)
    (h : Globals.load valid validServerName config env t fresh = Except.ok g) :
    g.globals = t.insert "keypair" (some ((t.get "keypair").getD fresh)) ∧
    g.keypair = ⟨(t.get "keypair").getD fresh, "key1"⟩ ∧
    g.server_name = resolved_server_name config env ∧
    g.max_request_size = (config.max_request_size.getD (20 * 1024 * 1024)).toNat ∧
    g.registration_disabled = config.registration_disabled.getD false ∧
    g.encryption_disabled = config.encryption_disabled.getD false ∧
    g.jwt_decoding_key = DecodingKey.from_secret (resolved_jwt_secret config env) ∧
    valid ((t.get "keypair").getD fresh) = true ∧
    validServerName (resolved_server_name config env) = true ∧
    0 ≤ config.max_request_size.getD (20 * 1024 * 1024) ∧
    config.max_request_size.getD (20 * 1024 * 1024) < 2 ^ 32 := by
  rw [load_eq] at h
  simp only [] at h
  split_ifs at h with hv hsn hm
  injection h with h
  subst h
  exact ⟨rfl, rfl, rfl, rfl, rfl, rfl, rfl, hv, hsn, hm.1, hm.2⟩

/-- A `next_count` on an absent counter returns 1 and stores the encoding
of 1. -/
theorem next_count_at_none (g : Globals) (h : g.globals.get COUNTER = none) :
    g.next_count = (Except.ok 1,
      { g with globals := g.globals.insert COUNTER (some (u64_to_be_bytes 1)) }) := by
  have e : (0 + 1) % 2 ^ 64 = 1 := by norm_num
  simp only [Globals.next_count, Tree.update_and_fetch, h, increment, e,
    u64_from_bytes_to_be 1 (by norm_num)]

/-- A `next_count` on a counter decoding to `d` (with room to increment)
returns `d + 1` and stores its encoding. -/
theorem next_count_at_bytes (g : Globals) (bytes : List Nat) (d : Nat)
    (h : g.globals.get COUNTER = some bytes)
    (hd : u64_from_bytes bytes = Except.ok d) (hlt : d + 1 < 2 ^ 64) :
    g.next_count = (Except.ok (d + 1),
      { g with globals := g.globals.insert COUNTER (some (u64_to_be_bytes (d + 1))) }) := by
  have e : (d + 1) % 2 ^ 64 = d + 1 := Nat.mod_eq_of_lt hlt
  simp only [Globals.next_count, Tree.update_and_fetch, h, increment, hd, e,
    u64_from_bytes_to_be (d + 1) hlt]

/-- A `next_count` on a counter of wrong width reports the data-corruption
error and leaves the stored bytes as they were. -/
theorem next_count_at_bad_length (g : Globals) (bytes : List Nat)
    (h : g.globals.get COUNTER = some bytes) (hlen : bytes.length ≠ 8) :
    g.next_count = (Except.error (Error.bad_database "Count has invalid bytes."),
      { g with globals := g.globals.insert COUNTER (some bytes) }) := by
  have hd : u64_from_bytes bytes = Except.error () := by
    unfold u64_from_bytes
    simp [hlen]
  simp only [Globals.next_count, Tree.update_and_fetch, h, increment, hd]

theorem current_count_at_none (g : Globals) (h : g.globals.get COUNTER = none) :
    g.current_count = (Except.ok 0, g) := by
  simp only [Globals.current_count, h]

theorem current_count_at_bytes (g : Globals) (bytes : List Nat) (d : Nat)
    (h : g.globals.get COUNTER = some bytes)
    (hd : u64_from_bytes bytes = Except.ok d) :
    g.current_count = (Except.ok d, g) := by
  simp only [Globals.current_count, h, hd]

theorem current_count_at_bad_length (g : Globals) (bytes : List Nat)
    (h : g.globals.get COUNTER = some bytes) (hlen : bytes.length ≠ 8) :
    g.current_count = (Except.error (Error.bad_database "Count has invalid bytes."), g) := by
  have hd : u64_from_bytes bytes = Except.error () := by
    unfold u64_from_bytes
    simp [hlen]
  simp only [Globals.current_count, h, hd]

/-- From a counter holding `k`, `N` further calls return `k+1, …, k+N` and
leave the counter at `k+N`. -/
theorem nextCounts_from (N : Nat) :
    ∀ (g : Globals) (k : Nat), k + N < 2 ^ 64 →
      g.globals.get COUNTER = some (u64_to_be_bytes k) →
      (nextCounts g N).1 = (List.range N).map (fun i => Except.ok (k + i + 1)) ∧
      (nextCounts g N).2.globals.get COUNTER = some (u64_to_be_bytes (k + N)) := by
  induction N with
  | zero =>
    intro g k hk h
    refine ⟨by simp [nextCounts], ?_⟩
    simpa [nextCounts] using h
  | succ M ih =>
    intro g k hk h
    have hkd : u64_from_bytes (u64_to_be_bytes k) = Except.ok k :=
      u64_from_bytes_to_be k (by omega)
    have hstep := next_count_at_bytes g (u64_to_be_bytes k) k h hkd (by omega)
    have hg2 : (g.next_count).2.globals.get COUNTER =
        some (u64_to_be_bytes (k + 1)) := by
      rw [hstep]
      exact Tree.get_insert_self _ _ _
    obtain ⟨ih1, ih2⟩ := ih (g.next_count).2 (k + 1) (by omega) hg2
    refine ⟨?_, ?_⟩
    · show g.next_count.1 :: (nextCounts g.next_count.2 M).1 = _
      rw [ih1, List.range_succ_eq_map, List.map_cons, List.map_map, hstep]
      refine congrArg₂ _ (by norm_num) ?_
      refine List.map_congr_left fun i _ => ?_
      show Except.ok (k + 1 + i + 1) = Except.ok (k + (i + 1) + 1)
      congr 1
      omega
    · show (nextCounts g.next_count.2 M).2.globals.get COUNTER = _
      rw [ih2]
      congr 2
      omega

/-! Claim theorems. -/

/-- C3: `current_count` returns the big-endian u64 decoding of the bytes
stored under the counter key and returns 0 when the key is absent; with the
8-byte big-endian encoding of 5 stored, `current_count` returns 5 and the
next `next_count` returns 6. -/
theorem current_count_spec (g gA g5 : Globals) (bytes : List Nat) (v : Nat)
    (hb : g.globals.get COUNTER = some bytes)
    (hdec : u64_from_bytes bytes = Except.ok v)
    (hA : gA.globals.get COUNTER = none)
    (h5 : g5.globals.get COUNTER = some (u64_to_be_bytes 5)) :
    g.current_count.1 = Except.ok v ∧
    gA.current_count.1 = Except.ok 0 ∧
    g5.current_count.1 = Except.ok 5 ∧
    g5.next_count.1 = Except.ok 6 := by
  have h5d : u64_from_bytes (u64_to_be_bytes 5) = Except.ok 5 :=
    u64_from_bytes_to_be 5 (by norm_num)
  refine ⟨?_, ?_, ?_, ?_⟩
  · rw [current_count_at_bytes g bytes v hb hdec]
  · rw [current_count_at_none gA hA]
  · rw [current_count_at_bytes g5 _ 5 h5 h5d]
  · rw [next_count_at_bytes g5 _ 5 h5 h5d (by norm_num)]

/-- Witness for C3 on concrete stores. -/
theorem current_count_spec_witness :
    (mkGlobals (counterTree 7)).current_count.1 = Except.ok 7 ∧
    (mkGlobals emptyTree).current_count.1 = Except.ok 0 ∧
    (mkGlobals (counterTree 5)).current_count.1 = Except.ok 5 ∧
    (mkGlobals (counterTree 5)).next_count.1 = Except.ok 6 :=
  current_count_spec (mkGlobals (counterTree 7)) (mkGlobals emptyTree)
    (mkGlobals (counterTree 5)) (u64_to_be_bytes 7) 7 rfl
    (u64_from_bytes_to_be 7 (by norm_num)) rfl rfl

/-- C4: a stored counter value whose byte length is not 8 makes both
`current_count` and `next_count` return the data-corruption error
(`bad_database`) rather than any numeric value. -/
theorem counter_bad_length_errors (g : Globals) (bytes : List Nat)
    (hb : g.globals.get COUNTER = some bytes) (hlen : bytes.length ≠ 8) :
    g.current_count.1 = Except.error (Error.bad_database "Count has invalid bytes.") ∧
    g.next_count.1 = Except.error (Error.bad_database "Count has invalid bytes.") := by
  refine ⟨?_, ?_⟩
  · rw [current_count_at_bad_length g bytes hb hlen]
  · rw [next_count_at_bad_length g bytes hb hlen]

/-- Witness for C4 on a store holding a 3-byte counter. -/
theorem counter_bad_length_errors_witness :
    (mkGlobals badCounterTree).current_count.1 =
      Except.error (Error.bad_database "Count has invalid bytes.") ∧
    (mkGlobals badCounterTree).next_count.1 =
      Except.error (Error.bad_database "Count has invalid bytes.") :=
  counter_bad_length_errors (mkGlobals badCounterTree) [1, 2, 3] rfl (by decide)

/-- C5: `current_count` never mutates the store: the handle after a call is
the handle before it, in particular the tree contents under the counter key
and the key-material key are identical, whether the call succeeds or
fails. -/
theorem current_count_no_mutation (g : Globals) :
    g.current_count.2 = g ∧
    g.current_count.2.globals.get COUNTER = g.globals.get COUNTER ∧
    g.current_count.2.globals.get "keypair" = g.globals.get "keypair" :=
  ⟨rfl, rfl, rfl⟩

/-- C7: the token-decoding key of a successful `Globals::load` is derived
from the secret selected by precedence: the `jwt_secret` configuration value
when present, else the `JWT_SECRET` environment variable when present, else
the hardcoded fallback literal. -/
theorem load_jwt_secret_precedence (valid : List Nat → Bool)
    (validServerName : String → Bool) (config : Config) (env : Env) (t : Tree)
    (fresh : List Nat) (g : Globals)
    (h : Globals.load valid validServerName config env t fresh = Except.ok g) :
    g.jwt_decoding_key = DecodingKey.from_secret
      (match config.jwt_secret with
        | some s => s
        | none =>
          match env.jwt_secret_var with
          | some s => s
          | none => "jwt_secret") := by
  rcases load_ok_inv valid validServerName config env t fresh g h with
    ⟨-, -, -, -, -, -, hj, -⟩
  exact hj

/-- Witness for C7 at empty configuration and environment (fallback
literal). -/
theorem load_jwt_secret_precedence_witness :
    exG1.jwt_decoding_key = DecodingKey.from_secret
      (match emptyConfig.jwt_secret with
        | some s => s
        | none =>
          match emptyEnv.jwt_secret_var with
          | some s => s
          | none => "jwt_secret") :=
  load_jwt_secret_precedence allBytesValid allNamesValid emptyConfig emptyEnv
    emptyTree [7] exG1 rfl

/-- C10: a successful `Globals::load` always labels the constructed keypair
with the fixed version string "key1", for every store state and
configuration. -/
theorem load_keypair_version_key1 (valid : List Nat → Bool)
    (validServerName : String → Bool) (config : Config) (env : Env) (t : Tree)
    (fresh : List Nat) (g : Globals)
    (h : Globals.load valid validServerName config env t fresh = Except.ok g) :
    g.keypair.version = "key1" := by
  rcases load_ok_inv valid validServerName config env t fresh g h with ⟨-, hk, -⟩
  rw [hk]

/-- Witness for C10 on the empty store. -/
theorem load_keypair_version_key1_witness :
    exG1.keypair.version = "key1" :=
  load_keypair_version_key1 allBytesValid allNamesValid emptyConfig emptyEnv
    emptyTree [7] exG1 rfl

/-- C1: key-material load is idempotent: a second `Globals::load` against
the tree committed by a first returns byte-identical key material and
identical stored key material; moreover the transform handed to the atomic
update returns bytes already present under "keypair" unchanged and commits
the unchanged tree, rather than generating new material. -/
theorem globals_load_keypair_idempotent (valid : List Nat → Bool)
    (validServerName : String → Bool) (config : Config) (env : Env) (t : Tree)
    (fresh1 fresh2 : List Nat) (g1 g2 : Globals)
    (h1 : Globals.load valid validServerName config env t fresh1 = Except.ok g1)
    (h2 : Globals.load valid validServerName config env g1.globals fresh2 =
      Except.ok g2) :
    g2.keypair.document = g1.keypair.document ∧
    g2.globals.get "keypair" = g1.globals.get "keypair" ∧
    g1.globals.update_and_fetch "keypair" (generate_keypair fresh2) =
      (some g1.keypair.document, g1.globals) := by
  rcases load_ok_inv valid validServerName config env t fresh1 g1 h1 with
    ⟨hg1, hk1, -⟩
  rcases load_ok_inv valid validServerName config env g1.globals fresh2 g2 h2 with
    ⟨hg2, hk2, -⟩
  have hd1 : g1.keypair.document = (t.get "keypair").getD fresh1 := by rw [hk1]
  have hget1 : g1.globals.get "keypair" =
      some ((t.get "keypair").getD fresh1) := by
    rw [hg1]
    exact Tree.get_insert_self _ _ _
  have hsome : g1.globals.get "keypair" = some g1.keypair.document := by
    rw [hget1, hd1]
  have hb2 : (g1.globals.get "keypair").getD fresh2 = g1.keypair.document := by
    rw [hsome]
    rfl
  refine ⟨?_, ?_, ?_⟩
  · rw [hk2, hb2]
  · rw [hg2, Tree.get_insert_self, hb2, hsome]
  · simp only [Tree.update_and_fetch, generate_keypair, hsome, Option.getD_some]
    rw [Tree.insert_of_get_eq _ _ _ hsome]

/-- Witness for C1: two loads over the empty store with different fresh
material. -/
theorem globals_load_keypair_idempotent_witness :
    exG2.keypair.document = exG1.keypair.document ∧
    exG2.globals.get "keypair" = exG1.globals.get "keypair" ∧
    exG1.globals.update_and_fetch "keypair" (generate_keypair [9]) =
      (some exG1.keypair.document, exG1.globals) :=
  globals_load_keypair_idempotent allBytesValid allNamesValid emptyConfig
    emptyEnv emptyTree [7] [9] exG1 exG2 rfl rfl

/-- C6: with `max_request_size` unset, `Globals::load` constructs a state
whose `max_request_size` accessor returns `20 * 1024 * 1024`; with a
configured value not representable as a u32 (and the remaining inputs
well-formed), it fails with `BadConfig` instead of constructing a state. -/
theorem load_max_request_size_spec (valid : List Nat → Bool)
    (validServerName : String → Bool) (config config2 : Config) (env : Env)
    (t : Tree) (fresh : List Nat) (g : Globals) (m : Int)
    (hunset : config.max_request_size = none)
    (hload : Globals.load valid validServerName config env t fresh = Except.ok g)
    (hm : config2.max_request_size = some m) (hbad : ¬(0 ≤ m ∧ m < 2 ^ 32))
    (hkp : valid ((t.get "keypair").getD fresh) = true)
    (hsn : validServerName (resolved_server_name config2 env) = true) :
    g.max_request_size = 20 * 1024 * 1024 ∧
    Globals.load valid validServerName config2 env t fresh =
      Except.error (Error.BadConfig "Invalid max_request_size.") := by
  refine ⟨?_, ?_⟩
  · rcases load_ok_inv valid validServerName config env t fresh g hload with
      ⟨-, -, -, hmrs, -⟩
    rw [hmrs, hunset]
    decide
  · rw [load_eq]
    simp only [hm, hkp, hsn, Option.getD_some, if_true]
    rw [if_neg hbad]

/-- Witness for C6: default on the empty configuration, failure at
`2 ^ 32`. -/
theorem load_max_request_size_spec_witness :
    exG1.max_request_size = 20 * 1024 * 1024 ∧
    Globals.load allBytesValid allNamesValid bigMrsConfig emptyEnv emptyTree [7] =
      Except.error (Error.BadConfig "Invalid max_request_size.") :=
  load_max_request_size_spec allBytesValid allNamesValid emptyConfig bigMrsConfig
    emptyEnv emptyTree [7] exG1 (2 ^ 32) rfl rfl rfl (by norm_num) rfl rfl

/-- C8: stored key material that fails to decode makes `Globals::load` fail
with the data-corruption error (`bad_database`), and the undecodable bytes
are not replaced by default or fresh material: the atomic update returns
them and commits the unchanged tree. -/
theorem load_invalid_keypair_errors (valid : List Nat → Bool)
    (validServerName : String → Bool) (config : Config) (env : Env) (t : Tree)
    (fresh bytes : List Nat)
    (hb : t.get "keypair" = some bytes) (hinvalid : valid bytes = false) :
    Globals.load valid validServerName config env t fresh =
      Except.error (Error.bad_database "Private or public keys are invalid.") ∧
    t.update_and_fetch "keypair" (generate_keypair fresh) = (some bytes, t) := by
  refine ⟨?_, ?_⟩
  · rw [load_eq]
    simp [hb, hinvalid]
  · simp only [Tree.update_and_fetch, generate_keypair, hb, Option.getD_some]
    rw [Tree.insert_of_get_eq _ _ _ hb]

/-- Witness for C8: a store holding the undecodable document `[7]` under an
all-rejecting decoder. -/
theorem load_invalid_keypair_errors_witness :
    Globals.load noBytesValid allNamesValid emptyConfig emptyEnv exTree1 [9] =
      Except.error (Error.bad_database "Private or public keys are invalid.") ∧
    exTree1.update_and_fetch "keypair" (generate_keypair [9]) =
      (some [7], exTree1) :=
  load_invalid_keypair_errors noBytesValid allNamesValid emptyConfig emptyEnv
    exTree1 [9] [7] rfl rfl

/-- At the stored value `2 ^ 64 - 1` the 8-byte width wraps: `next_count`
succeeds and returns 0. -/
theorem next_count_at_max (g : Globals)
    (h : g.globals.get COUNTER = some (u64_to_be_bytes (2 ^ 64 - 1))) :
    g.next_count.1 = Except.ok 0 := by
  have hd : u64_from_bytes (u64_to_be_bytes (2 ^ 64 - 1)) =
      Except.ok (2 ^ 64 - 1) :=
    u64_from_bytes_to_be _ (by norm_num)
  have e : (2 ^ 64 - 1 + 1) % 2 ^ 64 = 0 := by norm_num
  simp only [Globals.next_count, Tree.update_and_fetch, h, increment, hd, e,
    u64_from_bytes_to_be 0 (by norm_num)]

/-- C2 counterexample: with the counter holding the 8-byte big-endian
encoding of `2 ^ 64 - 1`, `next_count` succeeds and returns 0, which is not
one more than the prior stored value. -/
theorem next_count_wraps_at_u64_max :
    (Globals.next_count (mkGlobals (counterTree (2 ^ 64 - 1)))).1 =
      Except.ok 0 ∧
    (2 ^ 64 - 1) + 1 ≠ 0 :=
  ⟨next_count_at_max (mkGlobals (counterTree (2 ^ 64 - 1))) rfl, by norm_num⟩

/-- C2 (amended): `next_count` decodes the stored big-endian u64, adds one
modulo `2 ^ 64` (the 8-byte width wraps at `2 ^ 64 - 1`) and stores the
encoding of the new value; on a stored value `v < 2 ^ 64 - 1` a call
returns exactly `v + 1`; starting from an empty store, `N < 2 ^ 64`
successive calls return exactly the values `1` through `N` with no
duplicates or gaps, after which `current_count` returns `N`. -/
theorem next_count_sequence_spec (g g2 : Globals) (v N : Nat)
    (h0 : g.globals.get COUNTER = none) (hN : N < 2 ^ 64)
    (hg2 : g2.globals.get COUNTER = some (u64_to_be_bytes v))
    (hv : v < 2 ^ 64 - 1) :
    (g2.next_count.1 = Except.ok (v + 1) ∧
      g2.next_count.2.globals.get COUNTER = some (u64_to_be_bytes (v + 1))) ∧
    (nextCounts g N).1 = (List.range N).map (fun i => Except.ok (i + 1)) ∧
    (nextCounts g N).2.current_count.1 = Except.ok N := by
  have hvd : u64_from_bytes (u64_to_be_bytes v) = Except.ok v :=
    u64_from_bytes_to_be v (by omega)
  have hstep := next_count_at_bytes g2 _ v hg2 hvd (by omega)
  have hseq : (nextCounts g N).1 =
      (List.range N).map (fun i => Except.ok (i + 1)) ∧
      (nextCounts g N).2.current_count.1 = Except.ok N := by
    cases N with
    | zero =>
      refine ⟨by simp [nextCounts], ?_⟩
      have hz : (nextCounts g 0).2 = g := rfl
      rw [hz, current_count_at_none g h0]
    | succ M =>
      have hfirst := next_count_at_none g h0
      have hg1 : g.next_count.2.globals.get COUNTER =
          some (u64_to_be_bytes 1) := by
        rw [hfirst]
        exact Tree.get_insert_self _ _ _
      obtain ⟨r1, r2⟩ := nextCounts_from M g.next_count.2 1 (by omega) hg1
      constructor
      · show g.next_count.1 :: (nextCounts g.next_count.2 M).1 = _
        rw [r1, List.range_succ_eq_map, List.map_cons, List.map_map, hfirst]
        refine congrArg₂ _ rfl ?_
        refine List.map_congr_left fun i _ => ?_
        show Except.ok (1 + i + 1) = Except.ok (i.succ + 1)
        congr 1
        omega
      · show (nextCounts g.next_count.2 M).2.current_count.1 =
          Except.ok (M + 1)
        have hMd : u64_from_bytes (u64_to_be_bytes (1 + M)) =
            Except.ok (1 + M) :=
          u64_from_bytes_to_be _ (by omega)
        rw [current_count_at_bytes _ _ _ r2 hMd]
        show Except.ok (1 + M) = Except.ok (M + 1)
        congr 1
        omega
  exact ⟨⟨by rw [hstep], by rw [hstep]; exact Tree.get_insert_self _ _ _⟩,
    hseq.1, hseq.2⟩

/-- Witness for C2 (amended): stored value 5 increments to 6; three calls on
the empty store return 1, 2, 3 and leave `current_count` at 3. -/
theorem next_count_sequence_spec_witness :
    ((mkGlobals (counterTree 5)).next_count.1 = Except.ok 6 ∧
      (mkGlobals (counterTree 5)).next_count.2.globals.get COUNTER =
        some (u64_to_be_bytes 6)) ∧
    (nextCounts (mkGlobals emptyTree) 3).1 =
      (List.range 3).map (fun i => Except.ok (i + 1)) ∧
    (nextCounts (mkGlobals emptyTree) 3).2.current_count.1 = Except.ok 3 :=
  next_count_sequence_spec (mkGlobals emptyTree) (mkGlobals (counterTree 5)) 5 3
    rfl (by norm_num) rfl (by norm_num)

/-- C9 counterexample: at the stored value `2 ^ 64 - 1` a `next_count` call
succeeds and returns 0, which is less than 1. -/
theorem next_count_zero_at_u64_max :
    (Globals.next_count (mkGlobals (counterTree (2 ^ 64 - 1)))).1 =
      Except.ok 0 ∧
    ¬ 1 ≤ (0 : Nat) :=
  ⟨next_count_at_max (mkGlobals (counterTree (2 ^ 64 - 1))) rfl, by norm_num⟩

/-- C9 (amended): whenever the counter key is absent, or holds well-formed
bytes (each entry a byte) that do not decode to `2 ^ 64 - 1` (where the
8-byte width wraps to 0), a successful `next_count` returns at least 1. -/
theorem next_count_positive (g : Globals) (n : Nat)
    (h : g.globals.get COUNTER = none ∨
      ∃ bytes, g.globals.get COUNTER = some bytes ∧ (∀ b ∈ bytes, b < 256) ∧
        u64_from_bytes bytes ≠ Except.ok (2 ^ 64 - 1))
    (hn : g.next_count.1 = Except.ok n) :
    1 ≤ n := by
  rcases h with h | ⟨bytes, hb, hwf, hne⟩
  · rw [next_count_at_none g h] at hn
    have hn2 : Except.ok 1 = Except.ok n := hn
    injection hn2 with hn2
    omega
  · by_cases hlen : bytes.length = 8
    · have hdec : ∃ d, u64_from_bytes bytes = Except.ok d := by
        unfold u64_from_bytes
        rw [if_pos hlen]
        exact ⟨_, rfl⟩
      obtain ⟨d, hd⟩ := hdec
      have hdlt : d < 2 ^ 64 := u64_from_bytes_lt bytes d hwf hd
      have hdne : d ≠ 2 ^ 64 - 1 := fun he => hne (he ▸ hd)
      rw [next_count_at_bytes g bytes d hb hd (by omega)] at hn
      have hn2 : Except.ok (d + 1) = Except.ok n := hn
      injection hn2 with hn2
      omega
    · rw [next_count_at_bad_length g bytes hb hlen] at hn
      have hn2 : Except.error (Error.bad_database "Count has invalid bytes.") =
          Except.ok n := hn
      exact Except.noConfusion hn2

/-- Witness for C9 (amended): on the empty store the successful call
returns 1. -/
theorem next_count_positive_witness :
    (mkGlobals emptyTree).next_count.1 = Except.ok 1 ∧ 1 ≤ 1 :=
  ⟨rfl, next_count_positive (mkGlobals emptyTree) 1 (Or.inl rfl) rfl⟩

end Conduit
